import Mathlib

/-!
Shallow embedding of `parlai/utils/conversations.py` (the `Metadata` and
`Conversations` classes) together with proofs about the behaviour of its
save / load / iterate operations.

Modelling choices:
* Python values stored in act dictionaries and JSON records are modelled by
  the inductive type `Value`; Python dictionaries by association lists
  (`Dict`) whose assignment operation `dinsert` replaces the first matching
  key in place (as CPython dict assignment does) and otherwise appends.
* The filesystem is modelled as a partial map from paths to file contents,
  and the external `json` library as an abstract parser
  `parse : String → Option Value` (parsing the repository does not define)
  plus, on the writing side, records kept in structured form (the `json.dumps`
  / `json.loads` pair of the Python standard library is faithful on records,
  so the written file is identified with the list of records written).
* `datetime.datetime.now()` is an explicit `date` input of the metadata save.
-/

/-- Values held in act/turn dictionaries and JSON records: the subset of
Python objects that the module stores and compares. -/
inductive Value where
  | null
  | bool (b : Bool)
  | str (s : String)
  | num (n : Int)
  | arr (elts : List Value)
  | obj (fields : List (String × Value))

mutual

/-- Structural equality test on `Value` (Python `==` on these objects). -/
def Value.beq : Value → Value → Bool
  | .null, .null => true
  | .bool a, .bool b => a == b
  | .str a, .str b => a == b
  | .num a, .num b => a == b
  | .arr a, .arr b => valueListBeq a b
  | .obj a, .obj b => fieldListBeq a b
  | _, _ => false

/-- Pointwise `Value.beq` on lists. -/
def valueListBeq : List Value → List Value → Bool
  | [], [] => true
  | x :: xs, y :: ys => Value.beq x y && valueListBeq xs ys
  | _, _ => false

/-- Pointwise `Value.beq` on key/value field lists. -/
def fieldListBeq : List (String × Value) → List (String × Value) → Bool
  | [], [] => true
  | (k1, v1) :: xs, (k2, v2) :: ys => k1 == k2 && Value.beq v1 v2 && fieldListBeq xs ys
  | _, _ => false

end

mutual

theorem Value.beq_iff : ∀ a b : Value, Value.beq a b = true ↔ a = b
  | .null, .null => by simp [Value.beq]
  | .bool a, .bool b => by simp [Value.beq]
  | .str a, .str b => by simp [Value.beq]
  | .num a, .num b => by simp [Value.beq]
  | .arr a, .arr b => by
    simp only [Value.beq, valueListBeq_iff a b, Value.arr.injEq]
  | .obj a, .obj b => by
    simp only [Value.beq, fieldListBeq_iff a b, Value.obj.injEq]
  | .null, .bool _ | .null, .str _ | .null, .num _ | .null, .arr _ | .null, .obj _
  | .bool _, .null | .bool _, .str _ | .bool _, .num _ | .bool _, .arr _ | .bool _, .obj _
  | .str _, .null | .str _, .bool _ | .str _, .num _ | .str _, .arr _ | .str _, .obj _
  | .num _, .null | .num _, .bool _ | .num _, .str _ | .num _, .arr _ | .num _, .obj _
  | .arr _, .null | .arr _, .bool _ | .arr _, .str _ | .arr _, .num _ | .arr _, .obj _
  | .obj _, .null | .obj _, .bool _ | .obj _, .str _ | .obj _, .num _ | .obj _, .arr _ => by
    simp [Value.beq]

theorem valueListBeq_iff : ∀ a b : List Value, valueListBeq a b = true ↔ a = b
  | [], [] => by simp [valueListBeq]
  | x :: xs, y :: ys => by
    simp only [valueListBeq, Bool.and_eq_true, Value.beq_iff x y, valueListBeq_iff xs ys,
      List.cons.injEq]
  | [], _ :: _ => by simp [valueListBeq]
  | _ :: _, [] => by simp [valueListBeq]

theorem fieldListBeq_iff : ∀ a b : List (String × Value), fieldListBeq a b = true ↔ a = b
  | [], [] => by simp [fieldListBeq]
  | (k1, v1) :: xs, (k2, v2) :: ys => by
    simp only [fieldListBeq, Bool.and_eq_true, Value.beq_iff v1 v2, fieldListBeq_iff xs ys,
      List.cons.injEq, Prod.mk.injEq, beq_iff_eq, and_assoc]
  | [], _ :: _ => by simp [fieldListBeq]
  | _ :: _, [] => by simp [fieldListBeq]

end

instance : DecidableEq Value := fun a b =>
  decidable_of_iff (Value.beq a b = true) (Value.beq_iff a b)

/-- A Python dictionary with string keys, as an association list. -/
abbrev Dict := List (String × Value)

/-- First-match lookup in an association list (Python `d[k]` / `d.get(k)`:
keys are unique in a real dict, so first match is the match). -/
def dlookup (d : Dict) (k : String) : Option Value :=
  match d with
  | [] => none
  | kv :: rest => if kv.1 = k then some kv.2 else dlookup rest k

/-- Python `d.get(k, default)`. -/
def dictGetD (d : Dict) (k : String) (dflt : Value) : Value :=
  (dlookup d k).getD dflt

/-- Python dict assignment `d[k] = v`: replace the entry in place if the key
is present, otherwise append it. -/
def dinsert (d : Dict) (k : String) (v : Value) : Dict :=
  match d with
  | [] => [(k, v)]
  | kv :: rest => if kv.1 = k then (k, v) :: rest else kv :: dinsert rest k v

/-- Split a character list at every occurrence of `c` (keeping empty parts),
the core of Python `str.split`. -/
def splitListOn (c : Char) : List Char → List (List Char)
  | [] => [[]]
  | x :: xs =>
    match splitListOn c xs with
    | [] => [[]]
    | h :: t => if x = c then [] :: h :: t else (x :: h) :: t

/-- Python `s.split(c)` for a single-character separator. -/
def pySplit (s : String) (c : Char) : List String :=
  (splitListOn c s.toList).map String.mk

/-- Python `s.splitlines()` for newline-delimited text: like splitting on
the newline character, except that a trailing newline contributes no final
empty line. -/
def pySplitlines (s : String) : List String :=
  let parts := splitListOn '\n' s.toList
  (if parts.getLast? = some [] then parts.dropLast else parts).map String.mk

/-- Index of the last occurrence of `c` in `l` (Python `s.rfind(c)`, with
`none` for "not found"). -/
def lastIdxOf (l : List Char) (c : Char) : Option Nat :=
  match l.reverse.findIdx? (· = c) with
  | none => none
  | some i => some (l.length - 1 - i)

/-- Root part of `os.path.splitext(p)`: everything before the last dot of
the basename, except that leading dots of the basename never start an
extension. -/
def splitextRoot (p : String) : String :=
  let l := p.toList
  let sepIndex : Int := match lastIdxOf l '/' with | some i => (i : Int) | none => -1
  let dotIndex : Int := match lastIdxOf l '.' with | some i => (i : Int) | none => -1
  if sepIndex < dotIndex then
    if ((l.drop (sepIndex + 1).toNat).take (dotIndex - sepIndex - 1).toNat).any
        (fun ch => ch ≠ '.') then
      String.mk (l.take dotIndex.toNat)
    else p
  else p

/-- Embeds `Metadata._get_path` (conversations.py lines 64-67). -/
def metadata_get_path (datapath : String) : String :=
  splitextRoot datapath ++ ".metadata"

/-- Embeds `Metadata.version` (conversations.py lines 69-71). -/
def metadata_version : String := "0.1"

/-- Embeds `Conversations._get_path` (conversations.py lines 213-216). -/
def conversations_get_path (datapath : String) : String :=
  splitextRoot datapath ++ ".jsonl"

/-- Python membership test `v in ids` for a value against a list of strings
(only a string compares equal to a string). -/
def valueInStrings (v : Value) (ids : List String) : Bool :=
  match v with
  | .str s => ids.contains s
  | _ => false

/-- Embeds the turn construction of `Conversations.save_conversations`
(lines 256-260): `turn = {}`, then `turn[key] = ex.get(key, '')` for each
comma-separated key of `save_keys`, then `turn['id'] = ex_id`. -/
def set_turn (save_keys : String) (ex : Dict) (ex_id : Value) : Dict :=
  dinsert
    ((pySplit save_keys ',').foldl
      (fun turn key => dinsert turn key (dictGetD ex key (Value.str ""))) [])
    "id" ex_id

/-- State of the innermost loop of `save_conversations` (lines 246-264): the
filtered pair under construction, the conversation's context list, and the
running speakers list. -/
structure ActLoopState where
  new_pair : List Dict
  context : List Dict
  speakers : List Value
deriving DecidableEq

/-- Embeds one iteration of the `for ex in act_pair` loop of
`save_conversations` (lines 248-264). -/
def act_step (context_ids : List String) (save_keys : String)
    (st : ActLoopState) (ex : Dict) : ActLoopState :=
  let ex_id := dictGetD ex "id" Value.null
  let context := valueInStrings ex_id context_ids
  let speakers :=
    if context then st.speakers
    else if ex_id ∈ st.speakers then st.speakers else st.speakers ++ [ex_id]
  let turn := set_turn save_keys ex ex_id
  if context then
    { st with context := st.context ++ [turn], speakers := speakers }
  else
    { st with new_pair := st.new_pair ++ [turn], speakers := speakers }

/-- State of the `for act_pair in ep` loop of `save_conversations`: the
conversation record's growing `dialog` and `context` plus the speakers. -/
structure EpLoopState where
  dialog : List (List Dict)
  context : List Dict
  speakers : List Value
deriving DecidableEq

/-- Embeds one iteration of the `for act_pair in ep` loop of
`save_conversations` (lines 246-266): run the act loop with a fresh
`new_pair`, then append the pair to `dialog` only if it is non-empty. -/
def pair_step (context_ids : List String) (save_keys : String)
    (st : EpLoopState) (act_pair : List Dict) : EpLoopState :=
  let r := act_pair.foldl (act_step context_ids save_keys) ⟨[], st.context, st.speakers⟩
  { dialog := if r.new_pair.isEmpty then st.dialog else st.dialog ++ [r.new_pair]
    context := r.context
    speakers := r.speakers }

/-- One conversation record as written by `save_conversations` (line 241-245):
a `dialog` list of filtered pairs, a `context` list, and the metadata path. -/
structure Convo where
  dialog : List (List Dict)
  context : List Dict
  metadata_path : String
deriving DecidableEq

/-- Result of `Conversations.save_conversations`: the conversation records
written (one line each, in order) and the speakers list passed on to
`Metadata.save_metadata`. -/
structure SaveResult where
  lines : List Convo
  speakers : List Value
deriving DecidableEq

/-- Embeds `Conversations.save_conversations` (conversations.py lines
218-269): split `context_ids`, then for each non-empty episode build one
conversation record and write it; empty episodes are skipped
(`if not ep: continue`). -/
def save_conversations (act_list : List (List (List Dict))) (datapath : String)
    (save_keys : String) (context_ids : String) : SaveResult :=
  let to_save := conversations_get_path datapath
  let ctx := pySplit context_ids ','
  let r := act_list.foldl
    (fun (acc : List Convo × List Value) ep =>
      if ep.isEmpty then acc
      else
        let e := ep.foldl (pair_step ctx save_keys) ⟨[], [], acc.2⟩
        (acc.1 ++ [⟨e.dialog, e.context, metadata_get_path to_save⟩], e.speakers))
    ([], [])
  ⟨r.1, r.2⟩

/-- Embeds `Metadata.save_metadata` (conversations.py lines 73-93) at the
record level: the metadata dictionary that is serialized to the sidecar
file. The current timestamp is the explicit `date` input. -/
def save_metadata (date : String) (opt : Value) (self_chat : Bool)
    (speakers : Value) (kwargs : Dict) : Dict :=
  let m := dinsert [] "date" (Value.str date)
  let m := dinsert m "opt" opt
  let m := dinsert m "self_chat" (Value.bool self_chat)
  let m := dinsert m "speakers" speakers
  let m := dinsert m "version" (Value.str metadata_version)
  kwargs.foldl (fun m kv => dinsert m kv.1 kv.2) m

/-- Combined result of a full `save_conversations` call including the
`Metadata.save_metadata` call it makes at the end (lines 271-274). -/
structure FullSaveResult where
  lines : List Convo
  speakers : List Value
  metadata : Dict
deriving DecidableEq

/-- Embeds `Conversations.save_conversations` together with the
`Metadata.save_metadata` call it performs (lines 218-274); `date` stands for
`datetime.datetime.now()` rendered as a string. -/
def save_full (act_list : List (List (List Dict))) (datapath : String)
    (opt : Value) (save_keys : String) (context_ids : String)
    (self_chat : Bool) (kwargs : Dict) (date : String) : FullSaveResult :=
  let r := save_conversations act_list datapath save_keys context_ids
  ⟨r.lines, r.speakers, save_metadata date opt self_chat (Value.arr r.speakers) kwargs⟩

/-- Errors raised by the load paths: `RuntimeError` for a missing file
(carrying the attempted path, lines 31-35 and 132-136), a parse failure of
the external JSON parser (carrying the offending text), and a missing
required metadata key (Python `KeyError`, lines 40-44). -/
inductive LoadError where
  | notFound (path : String)
  | parseError (text : String)
  | keyError (key : String)
deriving DecidableEq

/-- In-memory fields of a loaded `Metadata` object (lines 40-48). -/
structure MetadataState where
  datetime : Value
  opt : Value
  self_chat : Value
  speakers : Value
  version_num : Value
  extra_data : Dict
deriving DecidableEq

/-- Extraction of a required metadata field (`metadata['date']` etc., lines
40-44): a missing key raises `KeyError`. -/
def require (d : Dict) (k : String) : Except LoadError Value :=
  match dlookup d k with
  | some v => Except.ok v
  | none => Except.error (LoadError.keyError k)

/-- Embeds `Metadata._load` (conversations.py lines 29-48) over a filesystem
`fs` (path to contents) and an abstract JSON parser `parse`: derive the
sidecar path, fail with the not-found `RuntimeError` if absent, parse the
contents, extract the five required fields in source order, and collect all
other top-level keys into `extra_data`. -/
def metadata_load (fs : String → Option String) (parse : String → Option Value)
    (datapath : String) : Except LoadError MetadataState :=
  let mpath := metadata_get_path datapath
  match fs mpath with
  | none => Except.error (LoadError.notFound mpath)
  | some content =>
    match parse content with
    | some (Value.obj d) =>
      match require d "date", require d "opt", require d "self_chat",
          require d "speakers", require d "version" with
      | .ok date, .ok opt, .ok sc, .ok sp, .ok ver =>
        Except.ok ⟨date, opt, sc, sp, ver,
          d.filter (fun kv =>
            !(["date", "opt", "speakers", "self_chat", "version"].contains kv.1))⟩
      | .error e, _, _, _, _ => Except.error e
      | _, .error e, _, _, _ => Except.error e
      | _, _, .error e, _, _ => Except.error e
      | _, _, _, .error e, _ => Except.error e
      | _, _, _, _, .error e => Except.error e
    | _ => Except.error (LoadError.parseError content)

/-- Embeds the line loop of `Conversations._load_conversations` (lines
138-144): parse each line independently, appending the records in order; a
parse failure aborts the whole load, carrying the offending line. -/
def parse_lines (parse : String → Option Value) :
    List String → Except LoadError (List Value)
  | [] => Except.ok []
  | line :: rest =>
    match parse line with
    | none => Except.error (LoadError.parseError line)
    | some v =>
      match parse_lines parse rest with
      | .ok vs => Except.ok (v :: vs)
      | .error e => Except.error e

/-- Embeds `Conversations._load_conversations` (conversations.py lines
131-144): fail with the not-found `RuntimeError` if the file is absent,
otherwise split its contents into lines and parse each line as one record. -/
def load_conversations (fs : String → Option String)
    (parse : String → Option Value) (datapath : String) :
    Except LoadError (List Value) :=
  match fs datapath with
  | none => Except.error (LoadError.notFound datapath)
  | some content => parse_lines parse (pySplitlines content)

/-- Embeds `Conversations._load_metadata` (conversations.py lines 146-165):
a `RuntimeError` from `Metadata` construction — raised only for a missing
sidecar file — is caught and downgraded to a `none` metadata plus a printed
warning; any other error propagates. The second component is the list of
warning messages printed. -/
def conversations_load_metadata (fs : String → Option String)
    (parse : String → Option Value) (datapath : String) :
    Except LoadError (Option MetadataState × List String) :=
  match metadata_load fs parse datapath with
  | .ok m => Except.ok (some m, [])
  | .error (.notFound _) =>
    Except.ok (none, ["Metadata does not exist. Please double check your datapath."])
  | .error e => Except.error e

/-- In-memory state of a `Conversations` object: the loaded records, the
(possibly absent) metadata, and the iteration cursor. -/
structure ConversationsData where
  conversations : List Value
  metadata : Option MetadataState
  iterator_idx : Nat
deriving DecidableEq

/-- Embeds `Conversations.__init__` (conversations.py lines 122-125): load
the conversation records, then the metadata, and start the cursor at 0. The
string list collects warnings printed while loading metadata. -/
def conversations_make (fs : String → Option String)
    (parse : String → Option Value) (datapath : String) :
    Except LoadError (ConversationsData × List String) :=
  match load_conversations fs parse datapath with
  | .error e => Except.error e
  | .ok convs =>
    match conversations_load_metadata fs parse datapath with
    | .error e => Except.error e
    | .ok (md, msgs) => Except.ok (⟨convs, md, 0⟩, msgs)

/-- Embeds `Conversations.num_conversations` (lines 127-129). -/
def num_conversations (d : ConversationsData) : Nat :=
  d.conversations.length

/-- Embeds `Conversations.__next__` (conversations.py lines 174-186): past
the end, reset the cursor to 0 and return the none marker; otherwise return
the conversation at the cursor and advance it. -/
def conversations_next (d : ConversationsData) : Option Value × ConversationsData :=
  if h : d.iterator_idx < d.conversations.length then
    (some (d.conversations.get ⟨d.iterator_idx, h⟩),
     { d with iterator_idx := d.iterator_idx + 1 })
  else
    (none, { d with iterator_idx := 0 })

/-- Embeds `Conversations.reset` (conversations.py lines 210-211). -/
def conversations_reset (d : ConversationsData) : ConversationsData :=
  { d with iterator_idx := 0 }

/-- Outputs of `k` successive `__next__` calls, with the final state. -/
def runNexts (d : ConversationsData) : Nat → List (Option Value) × ConversationsData
  | 0 => ([], d)
  | k + 1 =>
    let r := conversations_next d
    let rest := runNexts r.2 k
    (r.1 :: rest.1, rest.2)

/-- One cursor-affecting call on a `Conversations` object. -/
inductive ConvOp where
  | next
  | reset
deriving DecidableEq

/-- Apply one `next()`/`reset()` call to the state. -/
def applyOp (d : ConversationsData) : ConvOp → ConversationsData
  | .next => (conversations_next d).2
  | .reset => conversations_reset d

/-- Apply a sequence of `next()`/`reset()` calls to the state. -/
def applyOps (d : ConversationsData) (ops : List ConvOp) : ConversationsData :=
  ops.foldl applyOp d

/-- CPython list subscript semantics for an integer index: a negative index
counts from the end; anything out of range raises `IndexError` (`none`). -/
def list_getitem (l : List Value) (i : Int) : Option Value :=
  let j := if i < 0 then i + l.length else i
  if 0 ≤ j then l[j.toNat]? else none

/-- Embeds `Conversations.__getitem__` (conversations.py lines 171-172):
Python list indexing on the loaded conversation list. -/
def conversations_getitem (d : ConversationsData) (index : Int) : Option Value :=
  list_getitem d.conversations index

/-- The `ex_id` of a raw act: `ex.get('id')`, with Python's `None` for a
missing key (line 249). -/
def act_id (ex : Dict) : Value :=
  dictGetD ex "id" Value.null

/-- Whether a raw act is classified as context (line 250). -/
def isContextAct (context_ids : List String) (ex : Dict) : Bool :=
  valueInStrings (act_id ex) context_ids

/-- The turn record written for a raw act. -/
def actTurn (save_keys : String) (ex : Dict) : Dict :=
  set_turn save_keys ex (act_id ex)

/-- The filtered pair produced from one act pair: its non-context acts, in
order, projected to turn records. -/
def pairDialogTurns (context_ids : List String) (save_keys : String)
    (pair : List Dict) : List Dict :=
  (pair.filter (fun ex => !isContextAct context_ids ex)).map (actTurn save_keys)

/-- The context entries contributed by one act pair. -/
def pairContextTurns (context_ids : List String) (save_keys : String)
    (pair : List Dict) : List Dict :=
  (pair.filter (isContextAct context_ids)).map (actTurn save_keys)

/-- The ids of the non-context acts of one pair, in order. -/
def actIds (context_ids : List String) (pair : List Dict) : List Value :=
  (pair.filter (fun ex => !isContextAct context_ids ex)).map act_id

/-- The `dialog` of the conversation record produced from one episode:
the filtered pairs, with empty pairs dropped. -/
def epDialog (context_ids : List String) (save_keys : String)
    (ep : List (List Dict)) : List (List Dict) :=
  (ep.map (pairDialogTurns context_ids save_keys)).filter (fun p => !p.isEmpty)

/-- The `context` of the conversation record produced from one episode. -/
def epContext (context_ids : List String) (save_keys : String)
    (ep : List (List Dict)) : List Dict :=
  (ep.map (pairContextTurns context_ids save_keys)).flatten

/-- The non-context ids encountered in one episode, in traversal order. -/
def epIds (context_ids : List String) (ep : List (List Dict)) : List Value :=
  (ep.map (actIds context_ids)).flatten

/-- One speaker accumulation step (lines 254-255): append the id unless it
was already recorded. -/
def addSpeaker (sp : List Value) (i : Value) : List Value :=
  if i ∈ sp then sp else sp ++ [i]

/-- First-occurrence deduplication: keep each value at its first appearance
and delete every later duplicate. -/
def specFirstSeen : List Value → List Value
  | [] => []
  | x :: xs => x :: (specFirstSeen xs).filter (fun y => y != x)

/-- All non-context ids that a save call over `act_list` encounters, in
traversal order (duplicates included). -/
def save_nonContextIds (context_ids : String)
    (act_list : List (List (List Dict))) : List Value :=
  (act_list.flatten.flatten.filter
    (fun ex => !isContextAct (pySplit context_ids ',') ex)).map act_id

theorem act_step_context {context_ids : List String} {ex : Dict}
    (save_keys : String) (st : ActLoopState)
    (h : isContextAct context_ids ex = true) :
    act_step context_ids save_keys st ex =
      { st with context := st.context ++ [actTurn save_keys ex] } := by
  simp only [act_step, actTurn, act_id, isContextAct] at h ⊢
  rw [h]
  simp

theorem act_step_dialog {context_ids : List String} {ex : Dict}
    (save_keys : String) (st : ActLoopState)
    (h : isContextAct context_ids ex = false) :
    act_step context_ids save_keys st ex =
      { st with new_pair := st.new_pair ++ [actTurn save_keys ex],
                speakers := addSpeaker st.speakers (act_id ex) } := by
  simp only [act_step, actTurn, act_id, isContextAct, addSpeaker] at h ⊢
  rw [h]
  simp

theorem act_foldl_eq (context_ids : List String) (save_keys : String)
    (pair : List Dict) :
    ∀ np c sp, pair.foldl (act_step context_ids save_keys) ⟨np, c, sp⟩ =
      ⟨np ++ pairDialogTurns context_ids save_keys pair,
       c ++ pairContextTurns context_ids save_keys pair,
       (actIds context_ids pair).foldl addSpeaker sp⟩ := by
  induction pair with
  | nil =>
    intro np c sp
    simp [pairDialogTurns, pairContextTurns, actIds]
  | cons ex rest ih =>
    intro np c sp
    by_cases h : isContextAct context_ids ex
    · rw [List.foldl_cons, act_step_context save_keys _ h, ih]
      simp [pairDialogTurns, pairContextTurns, actIds, h]
    · rw [List.foldl_cons, act_step_dialog save_keys _ (by simpa using h), ih]
      simp [pairDialogTurns, pairContextTurns, actIds, h]

theorem ep_foldl_eq (context_ids : List String) (save_keys : String)
    (ep : List (List Dict)) :
    ∀ dlg c sp, ep.foldl (pair_step context_ids save_keys) ⟨dlg, c, sp⟩ =
      ⟨dlg ++ epDialog context_ids save_keys ep,
       c ++ epContext context_ids save_keys ep,
       (epIds context_ids ep).foldl addSpeaker sp⟩ := by
  induction ep with
  | nil =>
    intro dlg c sp
    simp [epDialog, epContext, epIds]
  | cons pair rest ih =>
    intro dlg c sp
    rw [List.foldl_cons]
    show List.foldl (pair_step context_ids save_keys)
      (pair_step context_ids save_keys ⟨dlg, c, sp⟩ pair) rest = _
    rw [show pair_step context_ids save_keys ⟨dlg, c, sp⟩ pair =
        ⟨(if (pairDialogTurns context_ids save_keys pair).isEmpty then dlg
          else dlg ++ [pairDialogTurns context_ids save_keys pair]),
         c ++ pairContextTurns context_ids save_keys pair,
         (actIds context_ids pair).foldl addSpeaker sp⟩ from by
      simp only [pair_step, act_foldl_eq]
      simp]
    rw [ih]
    simp only [epDialog, epContext, epIds, List.map_cons, List.filter_cons,
      List.flatten_cons, List.foldl_append]
    by_cases hp : (pairDialogTurns context_ids save_keys pair).isEmpty
    · simp [hp, List.append_assoc]
    · simp only [hp, Bool.not_false, if_false, if_true, Bool.not_eq_true']
      simp [hp, List.append_assoc]

theorem save_loop_eq (context_ids : List String) (save_keys mp : String)
    (eps : List (List (List Dict))) :
    ∀ acc : List Convo × List Value,
      eps.foldl
        (fun (acc : List Convo × List Value) ep =>
          if ep.isEmpty then acc
          else
            let e := ep.foldl (pair_step context_ids save_keys) ⟨[], [], acc.2⟩
            (acc.1 ++ [⟨e.dialog, e.context, mp⟩], e.speakers)) acc =
      (acc.1 ++ (eps.filter (fun ep => !ep.isEmpty)).map
          (fun ep => ⟨epDialog context_ids save_keys ep,
                      epContext context_ids save_keys ep, mp⟩),
       ((eps.map (epIds context_ids)).flatten).foldl addSpeaker acc.2) := by
  induction eps with
  | nil => intro acc; simp
  | cons ep rest ih =>
    intro acc
    rw [List.foldl_cons]
    by_cases he : ep.isEmpty
    · have hepids : epIds context_ids ep = [] := by
        rw [List.isEmpty_iff] at he
        simp [he, epIds]
      simp only [he, if_true, ih, List.filter_cons, he, Bool.not_true,
        List.map_cons, List.flatten_cons, hepids, List.nil_append]
      simp
    · simp only [he, if_false]
      rw [ep_foldl_eq]
      simp only [ih, List.filter_cons, he, Bool.not_false, List.map_cons,
        List.flatten_cons, List.foldl_append]
      simp [List.append_assoc]

/-- Structural description of `save_conversations`: one record per non-empty
episode, whose dialog is the non-empty filtered pairs and whose context is
the projected context acts; the speakers are folded over all non-context
ids. -/
theorem save_conversations_eq (act_list : List (List (List Dict)))
    (datapath save_keys context_ids : String) :
    save_conversations act_list datapath save_keys context_ids =
      ⟨(act_list.filter (fun ep => !ep.isEmpty)).map
          (fun ep => ⟨epDialog (pySplit context_ids ',') save_keys ep,
                      epContext (pySplit context_ids ',') save_keys ep,
                      metadata_get_path (conversations_get_path datapath)⟩),
       ((act_list.map (epIds (pySplit context_ids ','))).flatten).foldl
         addSpeaker []⟩ := by
  simp only [save_conversations]
  rw [save_loop_eq]
  simp

theorem dlookup_dinsert (d : Dict) (key k : String) (v : Value) :
    dlookup (dinsert d key v) k = if k = key then some v else dlookup d k := by
  induction d with
  | nil =>
    simp only [dinsert, dlookup]
    by_cases h : k = key
    · rw [if_pos h.symm, if_pos h]
    · rw [if_neg (fun hh : key = k => h hh.symm), if_neg h]
  | cons kv rest ih =>
    simp only [dinsert]
    by_cases h1 : kv.1 = key
    · rw [if_pos h1]
      simp only [dlookup]
      by_cases h2 : k = key
      · rw [if_pos h2.symm, if_pos h2]
      · have hkvk : ¬kv.1 = k := by
          rw [h1]
          exact fun hh : key = k => h2 hh.symm
        rw [if_neg (fun hh : key = k => h2 hh.symm), if_neg h2, if_neg hkvk]
    · rw [if_neg h1]
      simp only [dlookup, ih]
      by_cases hkv : kv.1 = k
      · have hk : ¬k = key := fun hh => h1 (hkv.trans hh)
        rw [if_pos hkv, if_neg hk, if_pos hkv]
      · rw [if_neg hkv]
        by_cases h2 : k = key
        · rw [if_pos h2, if_pos h2]
        · rw [if_neg h2, if_neg h2, if_neg hkv]

theorem dlookup_foldl_dinsert (f : String → Value) (keys : List String) :
    ∀ (t0 : Dict) (k : String),
      dlookup (keys.foldl (fun t key => dinsert t key (f key)) t0) k =
        if k ∈ keys then some (f k) else dlookup t0 k := by
  induction keys with
  | nil => simp
  | cons key rest ih =>
    intro t0 k
    rw [List.foldl_cons, ih]
    by_cases hk : k ∈ rest
    · simp [hk]
    · by_cases hke : k = key
      · simp [hk, hke, dlookup_dinsert]
      · simp [hk, hke, dlookup_dinsert]

/-- Full field map of a written turn record: `id` holds `ex_id` (the final
assignment wins even when `"id"` is among the save keys), every save key
holds the source value defaulted to the empty string, and no other key is
present. -/
theorem dlookup_set_turn (save_keys : String) (ex : Dict) (ex_id : Value)
    (k : String) :
    dlookup (set_turn save_keys ex ex_id) k =
      if k = "id" then some ex_id
      else if k ∈ pySplit save_keys ',' then some (dictGetD ex k (Value.str ""))
      else none := by
  unfold set_turn
  rw [dlookup_dinsert]
  by_cases h : k = "id"
  · simp [h]
  · rw [dlookup_foldl_dinsert (fun key => dictGetD ex key (Value.str ""))]
    simp [h, dlookup]

theorem mem_specFirstSeen (v : Value) : ∀ l, v ∈ specFirstSeen l ↔ v ∈ l := by
  intro l
  induction l with
  | nil => simp [specFirstSeen]
  | cons x xs ih =>
    simp only [specFirstSeen, List.mem_cons, List.mem_filter, ih, bne_iff_ne,
      ne_eq]
    by_cases hvx : v = x
    · simp [hvx]
    · simp [hvx]

theorem specFirstSeen_nodup : ∀ l, (specFirstSeen l).Nodup := by
  intro l
  induction l with
  | nil => simp [specFirstSeen]
  | cons x xs ih =>
    simp only [specFirstSeen, List.nodup_cons]
    constructor
    · intro hmem
      have := (List.mem_filter.mp hmem).2
      simp at this
    · exact ih.filter _

theorem foldl_addSpeaker_eq : ∀ (l : List Value) (acc : List Value),
    l.foldl addSpeaker acc =
      acc ++ (specFirstSeen l).filter (fun y => !acc.contains y) := by
  intro l
  induction l with
  | nil => intro acc; simp [specFirstSeen]
  | cons x xs ih =>
    intro acc
    rw [List.foldl_cons]
    by_cases hx : x ∈ acc
    · rw [show addSpeaker acc x = acc from by unfold addSpeaker; rw [if_pos hx], ih]
      congr 1
      simp only [specFirstSeen, List.filter_cons]
      have hcx : acc.contains x = true := by simpa using hx
      simp only [hcx, Bool.not_true, if_neg (by simp : ¬(false = true))]
      rw [List.filter_filter]
      apply List.filter_congr
      intro y hy
      by_cases hyx : y = x
      · subst hyx
        simp only [hcx]
        simp [hx]
      · simp [hyx]
    · rw [show addSpeaker acc x = acc ++ [x] from by unfold addSpeaker; rw [if_neg hx], ih]
      simp only [specFirstSeen, List.filter_cons]
      have hcx : acc.contains x = false := by
        simpa using hx
      simp only [hcx, Bool.not_false, if_pos rfl]
      rw [List.append_assoc, List.singleton_append]
      congr 2
      rw [List.filter_filter]
      apply List.filter_congr
      intro y hy
      by_cases hyx : y = x
      · subst hyx
        simp
      · have h1 : (y != x) = true := by simp [hyx]
        have h2 : ((acc ++ [x]).contains y) = (acc.contains y) := by
          simp [hyx]
        simp only [h1, h2, Bool.true_and]
        simp [hyx]

/-- The id traversal order seen by the save loop coincides with the flat
list of non-context ids of all acts. -/
theorem epIds_flatten (context_ids : String)
    (act_list : List (List (List Dict))) :
    (act_list.map (epIds (pySplit context_ids ','))).flatten =
      save_nonContextIds context_ids act_list := by
  unfold save_nonContextIds epIds actIds
  rw [List.filter_flatten, List.map_flatten, List.map_map, List.map_flatten,
    List.flatten_flatten, List.map_map]
  rfl

theorem parse_lines_ok (parse : String → Option Value) :
    ∀ (lines : List String) (r : List Value),
      parse_lines parse lines = Except.ok r → lines.map parse = r.map some := by
  intro lines
  induction lines with
  | nil =>
    intro r h
    simp only [parse_lines] at h
    cases h
    simp
  | cons line rest ih =>
    intro r h
    simp only [parse_lines] at h
    cases hp : parse line with
    | none => rw [hp] at h; cases h
    | some v =>
      rw [hp] at h
      cases hr : parse_lines parse rest with
      | error e => rw [hr] at h; cases h
      | ok vs =>
        rw [hr] at h
        cases h
        simp [hp, ih vs hr]

theorem parse_lines_first_bad (parse : String → Option Value) :
    ∀ (lines : List String) (line : String),
      lines.find? (fun l => (parse l).isNone) = some line →
      parse_lines parse lines = Except.error (LoadError.parseError line) := by
  intro lines
  induction lines with
  | nil => intro line h; simp at h
  | cons l rest ih =>
    intro line h
    rw [List.find?_cons] at h
    cases hp : parse l with
    | none =>
      rw [hp] at h
      simp only [Option.isNone_none, Option.some.injEq] at h
      cases h
      simp [parse_lines, hp]
    | some v =>
      rw [hp] at h
      simp only [Option.isNone_some] at h
      simp only [parse_lines, hp, ih line h]

/-- C7: during `ConversationArchive.load` of an existing file, every line is
parsed independently as one structured record (a successful load returns
exactly the per-line parses, in order); the first malformed line makes the
whole load fail with a `ParseError` carrying that line, with no partial
result. The external JSON parser is the abstract `parse`. -/
theorem claim_c7_strict_line_parse (fs : String → Option String)
    (parse : String → Option Value) (datapath content : String)
    (h : fs datapath = some content) :
    (∀ r, load_conversations fs parse datapath = Except.ok r →
      (pySplitlines content).map parse = r.map some) ∧
    (∀ line, (pySplitlines content).find? (fun l => (parse l).isNone) = some line →
      load_conversations fs parse datapath =
        Except.error (LoadError.parseError line)) := by
  unfold load_conversations
  rw [h]
  exact ⟨fun r hr => parse_lines_ok parse _ r hr,
         fun line hl => parse_lines_first_bad parse _ line hl⟩

theorem claim_c7_strict_line_parse_witness :
    load_conversations
      (fun p => if p = "convos.jsonl" then some "\x7ba\x7d\nBAD" else none)
      (fun s => if s = "BAD" then none else some (Value.str s))
      "convos.jsonl" = Except.error (LoadError.parseError "BAD") :=
  (claim_c7_strict_line_parse
      (fun p => if p = "convos.jsonl" then some "\x7ba\x7d\nBAD" else none)
      (fun s => if s = "BAD" then none else some (Value.str s))
      "convos.jsonl" "\x7ba\x7d\nBAD" (by rfl)).2 "BAD" (by decide)

/-- C8: constructing a `Conversations` object over an existing conversation
file whose metadata sidecar is absent succeeds: the not-found `RuntimeError`
from `Metadata` is caught, the warning message is printed, the metadata
field is `None`, and the loaded conversation records are kept. -/
theorem claim_c8_missing_sidecar (fs : String → Option String)
    (parse : String → Option Value) (datapath : String) (convs : List Value)
    (h1 : load_conversations fs parse datapath = Except.ok convs)
    (h2 : fs (metadata_get_path datapath) = none) :
    conversations_make fs parse datapath =
      Except.ok (⟨convs, none, 0⟩,
        ["Metadata does not exist. Please double check your datapath."]) := by
  simp only [conversations_make, h1, conversations_load_metadata, metadata_load, h2]

theorem claim_c8_missing_sidecar_witness :
    conversations_make
      (fun p => if p = "convos.jsonl" then some "x" else none)
      (fun s => some (Value.str s)) "convos.jsonl" =
      Except.ok (⟨[Value.str "x"], none, 0⟩,
        ["Metadata does not exist. Please double check your datapath."]) :=
  claim_c8_missing_sidecar
    (fun p => if p = "convos.jsonl" then some "x" else none)
    (fun s => some (Value.str s)) "convos.jsonl" [Value.str "x"]
    (by rfl) (by rfl)

theorem conversations_next_lt (d : ConversationsData)
    (h : d.iterator_idx < d.conversations.length) :
    conversations_next d =
      (some (d.conversations.get ⟨d.iterator_idx, h⟩),
       { d with iterator_idx := d.iterator_idx + 1 }) := by
  unfold conversations_next
  rw [dif_pos h]

theorem conversations_next_ge (d : ConversationsData)
    (h : ¬d.iterator_idx < d.conversations.length) :
    conversations_next d = (none, { d with iterator_idx := 0 }) := by
  unfold conversations_next
  rw [dif_neg h]

theorem runNexts_eq (convs : List Value) (md : Option MetadataState) :
    ∀ (k i : Nat), i + k ≤ convs.length →
      runNexts ⟨convs, md, i⟩ k =
        (((convs.drop i).take k).map some, ⟨convs, md, i + k⟩) := by
  intro k
  induction k with
  | zero => intro i h; simp [runNexts]
  | succ k ih =>
    intro i h
    have hi : i < convs.length := by omega
    have hnext : conversations_next ⟨convs, md, i⟩ =
        (some (convs.get ⟨i, hi⟩), ⟨convs, md, i + 1⟩) :=
      conversations_next_lt ⟨convs, md, i⟩ hi
    simp only [runNexts, hnext, ih (i + 1) (by omega)]
    rw [List.drop_eq_getElem_cons hi, List.take_succ_cons, List.map_cons]
    have harith : i + 1 + k = i + (k + 1) := by omega
    rw [harith]
    simp [List.get_eq_getElem]

theorem applyOps_inv (ops : List ConvOp) :
    ∀ d : ConversationsData, d.iterator_idx ≤ d.conversations.length →
      (applyOps d ops).conversations = d.conversations ∧
      (applyOps d ops).iterator_idx ≤ d.conversations.length := by
  induction ops with
  | nil => intro d h; exact ⟨rfl, h⟩
  | cons op rest ih =>
    intro d h
    have step : (applyOp d op).conversations = d.conversations ∧
        (applyOp d op).iterator_idx ≤ d.conversations.length := by
      cases op with
      | next =>
        by_cases hlt : d.iterator_idx < d.conversations.length
        · rw [show applyOp d ConvOp.next = (conversations_next d).2 from rfl,
            conversations_next_lt d hlt]
          exact ⟨rfl, by show d.iterator_idx + 1 ≤ d.conversations.length; omega⟩
        · rw [show applyOp d ConvOp.next = (conversations_next d).2 from rfl,
            conversations_next_ge d hlt]
          exact ⟨rfl, by show 0 ≤ d.conversations.length; omega⟩
      | reset =>
        exact ⟨rfl, by show 0 ≤ d.conversations.length; omega⟩
    have := ih (applyOp d op) (step.1 ▸ step.2)
    rw [step.1] at this
    simpa [applyOps, List.foldl_cons] using this

/-- C5: starting from cursor 0, the first `num_conversations` calls to
`__next__` return the conversations once each in file order (advancing the
cursor by one per call), the following call returns the none marker and
resets the cursor to 0, the call after that restarts from conversation 0,
and after any sequence of `__next__`/`reset` calls the cursor stays in
`[0, num_conversations]`. -/
theorem claim_c5_iteration (d : ConversationsData)
    (h0 : d.iterator_idx = 0) :
    (runNexts d (num_conversations d)).1 = d.conversations.map some ∧
    (runNexts d (num_conversations d)).2 =
      { d with iterator_idx := num_conversations d } ∧
    conversations_next (runNexts d (num_conversations d)).2 = (none, d) ∧
    (conversations_next
        (conversations_next (runNexts d (num_conversations d)).2).2).1 =
      d.conversations[0]? ∧
    (∀ ops : List ConvOp,
      (applyOps d ops).iterator_idx ≤ num_conversations d) := by
  obtain ⟨convs, md, idx⟩ := d
  simp only at h0
  subst h0
  have hrun := runNexts_eq convs md convs.length 0 (by omega)
  simp only [List.drop_zero, List.take_length, Nat.zero_add] at hrun
  have hend : conversations_next ⟨convs, md, convs.length⟩ =
      (none, ⟨convs, md, 0⟩) :=
    conversations_next_ge ⟨convs, md, convs.length⟩ (by simp)
  simp only [num_conversations, hrun, hend]
  refine ⟨trivial, trivial, trivial, ?_, ?_⟩
  · by_cases hn : 0 < convs.length
    · rw [conversations_next_lt ⟨convs, md, 0⟩ (by simpa using hn)]
      simp [List.getElem?_eq_getElem hn]
    · rw [conversations_next_ge ⟨convs, md, 0⟩ (by simpa using hn)]
      have hlen : convs.length = 0 := by omega
      rw [List.getElem?_eq_none (by omega)]
  · intro ops
    exact (applyOps_inv ops ⟨convs, md, 0⟩ (by simp)).2

theorem claim_c5_iteration_witness :
    (runNexts ⟨[Value.str "a", Value.str "b"], none, 0⟩ 2).1 =
      [some (Value.str "a"), some (Value.str "b")] ∧
    conversations_next (runNexts ⟨[Value.str "a", Value.str "b"], none, 0⟩ 2).2 =
      (none, ⟨[Value.str "a", Value.str "b"], none, 0⟩) ∧
    (applyOps ⟨[Value.str "a", Value.str "b"], none, 0⟩
        [ConvOp.next, ConvOp.next, ConvOp.next, ConvOp.reset,
         ConvOp.next]).iterator_idx ≤ 2 :=
  ⟨(claim_c5_iteration ⟨[Value.str "a", Value.str "b"], none, 0⟩ rfl).1,
   (claim_c5_iteration ⟨[Value.str "a", Value.str "b"], none, 0⟩ rfl).2.2.1,
   (claim_c5_iteration ⟨[Value.str "a", Value.str "b"], none, 0⟩ rfl).2.2.2.2 _⟩

/-- C10: on an archive with `n > 0` conversations, indexed access succeeds
for every index in `[-n, n-1]`; a negative index `-k` with `1 ≤ k ≤ n`
returns the `(n-k)`-th conversation (CPython negative indexing), and only
indices outside `[-n, n-1]` raise the out-of-range error (`none`). -/
theorem claim_c10_indexing (d : ConversationsData)
    (h : 0 < num_conversations d) :
    (∀ i : Int, -(num_conversations d : Int) ≤ i →
      i < (num_conversations d : Int) →
      (conversations_getitem d i).isSome = true) ∧
    (∀ k : Nat, 1 ≤ k → k ≤ num_conversations d →
      conversations_getitem d (-(k : Int)) =
        d.conversations[num_conversations d - k]?) ∧
    (∀ i : Int, (i < -(num_conversations d : Int) ∨
        (num_conversations d : Int) ≤ i) →
      conversations_getitem d i = none) := by
  simp only [num_conversations] at *
  refine ⟨?_, ?_, ?_⟩
  · intro i h1 h2
    unfold conversations_getitem list_getitem
    by_cases hneg : i < 0
    · simp only [if_pos hneg, if_pos (by omega : (0:Int) ≤ i + d.conversations.length)]
      have hlt : (i + (d.conversations.length : Int)).toNat < d.conversations.length := by
        omega
      simp [List.getElem?_eq_getElem hlt]
    · simp only [if_neg hneg, if_pos (by omega : (0:Int) ≤ i)]
      have hlt : i.toNat < d.conversations.length := by omega
      simp [List.getElem?_eq_getElem hlt]
  · intro k h1 h2
    unfold conversations_getitem list_getitem
    have hneg : -(k : Int) < 0 := by omega
    simp only [if_pos hneg, if_pos (by omega : (0:Int) ≤ -(k : Int) + d.conversations.length)]
    congr 1
    omega
  · intro i hi
    unfold conversations_getitem list_getitem
    rcases hi with hi | hi
    · have hneg : i < 0 := by omega
      simp only [if_pos hneg]
      rw [if_neg (by omega : ¬(0:Int) ≤ i + d.conversations.length)]
    · by_cases hneg : i < 0
      · omega
      · simp only [if_neg hneg, if_pos (by omega : (0:Int) ≤ i)]
        exact List.getElem?_eq_none (by omega)

theorem claim_c10_indexing_witness :
    conversations_getitem ⟨[Value.str "a", Value.str "b"], none, 0⟩ (-1) =
      some (Value.str "b") := by
  have := (claim_c10_indexing ⟨[Value.str "a", Value.str "b"], none, 0⟩
    (by decide)).2.1 1 (by decide) (by decide)
  simpa using this

theorem epDialog_of_all_context (ctx : List String) (keys : String)
    (ep : List (List Dict))
    (h : ∀ ex ∈ ep.flatten, isContextAct ctx ex = true) :
    epDialog ctx keys ep = [] := by
  unfold epDialog
  rw [List.filter_eq_nil_iff]
  intro p hp
  rw [List.mem_map] at hp
  obtain ⟨pair, hpair, rfl⟩ := hp
  unfold pairDialogTurns
  have hnil : pair.filter (fun ex => !isContextAct ctx ex) = [] := by
    rw [List.filter_eq_nil_iff]
    intro ex hex
    simp [h ex (List.mem_flatten.mpr ⟨pair, hpair, hex⟩)]
  simp [hnil]

theorem epContext_of_all_context (ctx : List String) (keys : String)
    (ep : List (List Dict))
    (h : ∀ ex ∈ ep.flatten, isContextAct ctx ex = true) :
    epContext ctx keys ep = ep.flatten.map (actTurn keys) := by
  unfold epContext
  have hmap : ep.map (pairContextTurns ctx keys) =
      ep.map (List.map (actTurn keys)) := by
    apply List.map_congr_left
    intro pair hpair
    unfold pairContextTurns
    rw [List.filter_eq_self.mpr
      (fun ex hex => h ex (List.mem_flatten.mpr ⟨pair, hpair, hex⟩))]
  rw [hmap, ← List.map_flatten]

/-- C1 counterexample: the episode `[[]]` (one episode consisting of a
single empty act pair) produces no non-empty filtered pair and empty
context, yet `save_conversations` still writes one line for it (a record
with empty `dialog` and empty `context`) instead of dropping it. -/
theorem claim_c1_counterexample :
    (save_conversations [[[]]] "data" "text,labels,eval_labels"
      "context").lines.length = 1 ∧
    ∀ c ∈ (save_conversations [[[]]] "data" "text,labels,eval_labels"
      "context").lines, c.dialog = [] ∧ c.context = [] := by decide

/-- C1 (amended): an episode that is an empty sequence contributes zero
lines (and a non-empty episode contributes exactly one line, so the line
count is the number of non-empty episodes); an episode is dropped entirely
if and only if it is the empty sequence — in particular a non-empty episode
with no non-empty filtered pair and empty context still contributes one
line; and an episode whose every turn is classified as context contributes
zero dialog-pairs while its context collects every turn (hence non-empty
context whenever the episode has at least one turn). -/
theorem claim_c1_amended (datapath save_keys context_ids : String) :
    (∀ act_list, (save_conversations act_list datapath save_keys
        context_ids).lines.length =
      (act_list.filter (fun ep => !ep.isEmpty)).length) ∧
    (∀ ep, (save_conversations [ep] datapath save_keys context_ids).lines = []
      ↔ ep = []) ∧
    (∀ ep, (∀ ex ∈ ep.flatten, isContextAct (pySplit context_ids ',') ex = true) →
      ∀ c ∈ (save_conversations [ep] datapath save_keys context_ids).lines,
        c.dialog = [] ∧ c.context = ep.flatten.map (actTurn save_keys)) := by
  refine ⟨?_, ?_, ?_⟩
  · intro act_list
    rw [save_conversations_eq]
    simp
  · intro ep
    rw [save_conversations_eq]
    by_cases he : ep.isEmpty
    · rw [List.isEmpty_iff] at he
      simp [he]
    · have hne : ¬ep = [] := by simpa [List.isEmpty_iff] using he
      simp [List.filter_cons, he, hne]
  · intro ep hctx c hc
    rw [save_conversations_eq] at hc
    by_cases he : ep.isEmpty
    · rw [List.isEmpty_iff] at he
      simp [he] at hc
    · have hc' : c = ⟨epDialog (pySplit context_ids ',') save_keys ep,
          epContext (pySplit context_ids ',') save_keys ep,
          metadata_get_path (conversations_get_path datapath)⟩ := by
        simpa [List.filter_cons, he] using hc
      subst hc'
      exact ⟨epDialog_of_all_context _ _ _ hctx,
             epContext_of_all_context _ _ _ hctx⟩

theorem claim_c1_amended_witness :
    (save_conversations
      [[], [[[("id", Value.str "context"), ("text", Value.str "room A")]]]]
      "data" "text,labels,eval_labels" "context").lines.length =
      (([[], [[[("id", Value.str "context"), ("text", Value.str "room A")]]]] :
        List (List (List Dict))).filter (fun ep => !ep.isEmpty)).length ∧
    ((⟨[], [actTurn "text,labels,eval_labels"
        [("id", Value.str "context"), ("text", Value.str "room A")]],
      "data.metadata"⟩ : Convo).dialog = [] ∧
     (⟨[], [actTurn "text,labels,eval_labels"
        [("id", Value.str "context"), ("text", Value.str "room A")]],
      "data.metadata"⟩ : Convo).context =
      ([[[("id", Value.str "context"), ("text", Value.str "room A")]]] :
        List (List Dict)).flatten.map (actTurn "text,labels,eval_labels")) :=
  ⟨(claim_c1_amended "data" "text,labels,eval_labels" "context").1
      [[], [[[("id", Value.str "context"), ("text", Value.str "room A")]]]],
   (claim_c1_amended "data" "text,labels,eval_labels" "context").2.2
      [[[("id", Value.str "context"), ("text", Value.str "room A")]]]
      (by decide) _ (by decide)⟩

/-- C2: saving the single input episode
`[[{id: context, text: room A}], [{id: context, text: room A},
{id: speaker_1, text: hi}, {id: speaker_2, text: hello}]]` with the default
`save_keys` and `context_ids` produces one conversation record whose context
holds exactly two entries with text "room A" (one per occurrence) and whose
dialog holds exactly one pair of two turns (speaker_1 saying "hi" then
speaker_2 saying "hello"); the speakers passed to the metadata save are
`["speaker_1", "speaker_2"]`. -/
theorem claim_c2_example_episode :
    (save_conversations
      [[[[("id", Value.str "context"), ("text", Value.str "room A")]],
        [[("id", Value.str "context"), ("text", Value.str "room A")],
         [("id", Value.str "speaker_1"), ("text", Value.str "hi")],
         [("id", Value.str "speaker_2"), ("text", Value.str "hello")]]]]
      "data" "text,labels,eval_labels" "context").lines.map
        (fun c => (c.context.map (fun t => dlookup t "text"),
                   c.dialog.map (fun p =>
                     p.map (fun t => (dlookup t "id", dlookup t "text"))))) =
      [([some (Value.str "room A"), some (Value.str "room A")],
        [[(some (Value.str "speaker_1"), some (Value.str "hi")),
          (some (Value.str "speaker_2"), some (Value.str "hello"))]])] ∧
    (save_conversations
      [[[[("id", Value.str "context"), ("text", Value.str "room A")]],
        [[("id", Value.str "context"), ("text", Value.str "room A")],
         [("id", Value.str "speaker_1"), ("text", Value.str "hi")],
         [("id", Value.str "speaker_2"), ("text", Value.str "hello")]]]]
      "data" "text,labels,eval_labels" "context").speakers =
      [Value.str "speaker_1", Value.str "speaker_2"] := by decide

/-- C3: the speakers list passed to the metadata save contains every
distinct turn id encountered during the save call that was not classified
as a context id — deduplicated, keeping the first occurrence of each id in
traversal order. -/
theorem claim_c3_speakers (act_list : List (List (List Dict)))
    (datapath save_keys context_ids : String) :
    (save_conversations act_list datapath save_keys context_ids).speakers =
      specFirstSeen (save_nonContextIds context_ids act_list) ∧
    (save_conversations act_list datapath save_keys context_ids).speakers.Nodup ∧
    (∀ v : Value,
      v ∈ (save_conversations act_list datapath save_keys context_ids).speakers ↔
      v ∈ save_nonContextIds context_ids act_list) := by
  have key : (save_conversations act_list datapath save_keys context_ids).speakers =
      specFirstSeen (save_nonContextIds context_ids act_list) := by
    rw [save_conversations_eq]
    show ((act_list.map (epIds (pySplit context_ids ','))).flatten).foldl
      addSpeaker [] = _
    rw [epIds_flatten, foldl_addSpeaker_eq]
    simp
  exact ⟨key, key ▸ specFirstSeen_nodup _, fun v => key ▸ mem_specFirstSeen v _⟩

/-- C4: round trip. The written (and, the JSON line encoding of the external
`json` library being faithful, reloaded) records consist of, per non-empty
episode in order, the non-context turns of each pair in order, projected to
turn records; the projection keeps exactly the id (`dlookup t "id"` is the
source act's id) and the `save_keys` fields (present source values are
reproduced verbatim, absent ones default to the empty string), and no other
source field survives. -/
theorem claim_c4_round_trip (act_list : List (List (List Dict)))
    (datapath save_keys context_ids : String) :
    (save_conversations act_list datapath save_keys context_ids).lines =
      (act_list.filter (fun ep => !ep.isEmpty)).map
        (fun ep => ⟨epDialog (pySplit context_ids ',') save_keys ep,
                    epContext (pySplit context_ids ',') save_keys ep,
                    metadata_get_path (conversations_get_path datapath)⟩) ∧
    (∀ ex : Dict, dlookup (actTurn save_keys ex) "id" = some (act_id ex)) ∧
    (∀ ex : Dict, ∀ k, k ∈ pySplit save_keys ',' → k ≠ "id" →
      dlookup (actTurn save_keys ex) k = some (dictGetD ex k (Value.str ""))) ∧
    (∀ ex : Dict, ∀ k, k ∉ pySplit save_keys ',' → k ≠ "id" →
      dlookup (actTurn save_keys ex) k = none) := by
  refine ⟨?_, ?_, ?_, ?_⟩
  · rw [save_conversations_eq]
  · intro ex
    unfold actTurn
    rw [dlookup_set_turn]
    simp
  · intro ex k hk hne
    unfold actTurn
    rw [dlookup_set_turn]
    simp [hk, hne]
  · intro ex k hk hne
    unfold actTurn
    rw [dlookup_set_turn]
    simp [hk, hne]

theorem claim_c4_round_trip_witness :
    dlookup (actTurn "text,labels,eval_labels"
      [("id", Value.str "sp"), ("text", Value.str "hi")]) "text" =
      some (Value.str "hi") := by
  have h := (claim_c4_round_trip [] "data" "text,labels,eval_labels"
    "context").2.2.1 [("id", Value.str "sp"), ("text", Value.str "hi")]
    "text" (by decide) (by decide)
  exact h.trans (by decide)

theorem isSome_dlookup_actTurn (save_keys : String) (ex : Dict) (k : String) :
    (dlookup (actTurn save_keys ex) k).isSome = true ↔
      (k ∈ pySplit save_keys ',' ∨ k = "id") := by
  unfold actTurn
  rw [dlookup_set_turn]
  by_cases h1 : k = "id"
  · simp [h1]
  · by_cases h2 : k ∈ pySplit save_keys ','
    · simp [h1, h2]
    · simp [h1, h2]

theorem written_turns_actTurn (act_list : List (List (List Dict)))
    (datapath save_keys context_ids : String) :
    ∀ c ∈ (save_conversations act_list datapath save_keys context_ids).lines,
      (∀ p ∈ c.dialog, ∀ t ∈ p, ∃ ex, t = actTurn save_keys ex) ∧
      (∀ t ∈ c.context, ∃ ex, t = actTurn save_keys ex) := by
  intro c hc
  rw [save_conversations_eq] at hc
  simp only [List.mem_map] at hc
  obtain ⟨ep, hep, rfl⟩ := hc
  constructor
  · intro p hp t ht
    simp only [epDialog, List.mem_filter, List.mem_map] at hp
    obtain ⟨⟨pair, hpair, rfl⟩, hne⟩ := hp
    unfold pairDialogTurns at ht
    rw [List.mem_map] at ht
    obtain ⟨ex, hex, rfl⟩ := ht
    exact ⟨ex, rfl⟩
  · intro t ht
    simp only [epContext, List.mem_flatten, List.mem_map] at ht
    obtain ⟨ts, ⟨pair, hpair, rfl⟩, hts⟩ := ht
    unfold pairContextTurns at hts
    rw [List.mem_map] at hts
    obtain ⟨ex, hex, rfl⟩ := hts
    exact ⟨ex, rfl⟩

/-- C6: every turn record written by `save_conversations` (dialog and
context alike) has a field defined for exactly the keys named in
`save_keys` plus `id` — every named key is present even when the source
turn lacks it, in which case its value is the empty string. -/
theorem claim_c6_uniform_turn_fields (act_list : List (List (List Dict)))
    (datapath save_keys context_ids : String) :
    (∀ c ∈ (save_conversations act_list datapath save_keys context_ids).lines,
      (∀ p ∈ c.dialog, ∀ t ∈ p, ∀ k : String,
        (dlookup t k).isSome = true ↔ (k ∈ pySplit save_keys ',' ∨ k = "id")) ∧
      (∀ t ∈ c.context, ∀ k : String,
        (dlookup t k).isSome = true ↔ (k ∈ pySplit save_keys ',' ∨ k = "id"))) ∧
    (∀ ex : Dict, ∀ k, k ∈ pySplit save_keys ',' → k ≠ "id" →
      dlookup ex k = none →
      dlookup (actTurn save_keys ex) k = some (Value.str "")) := by
  constructor
  · intro c hc
    have h := written_turns_actTurn act_list datapath save_keys context_ids c hc
    constructor
    · intro p hp t ht k
      obtain ⟨ex, rfl⟩ := h.1 p hp t ht
      exact isSome_dlookup_actTurn save_keys ex k
    · intro t ht k
      obtain ⟨ex, rfl⟩ := h.2 t ht
      exact isSome_dlookup_actTurn save_keys ex k
  · intro ex k hk hne hnone
    unfold actTurn
    rw [dlookup_set_turn]
    simp [hk, hne, dictGetD, hnone]

theorem claim_c6_uniform_turn_fields_witness :
    dlookup (actTurn "text,labels,eval_labels" [("id", Value.str "sp")])
      "text" = some (Value.str "") :=
  (claim_c6_uniform_turn_fields [] "data" "text,labels,eval_labels"
    "context").2 [("id", Value.str "sp")] "text" (by decide) (by decide)
    (by rfl)

theorem foldl_dinsert_lookup_congr (kwargs : Dict) :
    ∀ (m1 m2 : Dict),
      (∀ k, k ≠ "date" → dlookup m1 k = dlookup m2 k) →
      ∀ k, k ≠ "date" →
        dlookup (kwargs.foldl (fun m kv => dinsert m kv.1 kv.2) m1) k =
        dlookup (kwargs.foldl (fun m kv => dinsert m kv.1 kv.2) m2) k := by
  induction kwargs with
  | nil => intro m1 m2 h k hk; exact h k hk
  | cons kv rest ih =>
    intro m1 m2 h k hk
    simp only [List.foldl_cons]
    refine ih (dinsert m1 kv.1 kv.2) (dinsert m2 kv.1 kv.2) ?_ k hk
    intro k' hk'
    rw [dlookup_dinsert, dlookup_dinsert]
    by_cases he : k' = kv.1
    · simp [he]
    · simp [he, h k' hk']

/-- C9: two `save` calls with identical inputs produce identical
conversation-file output and identical speakers, and metadata records that
agree on every key other than `date` (the timestamp is the only
call-dependent input). -/
theorem claim_c9_identical_output (act_list : List (List (List Dict)))
    (datapath : String) (opt : Value) (save_keys context_ids : String)
    (self_chat : Bool) (kwargs : Dict) (d1 d2 : String) :
    (save_full act_list datapath opt save_keys context_ids self_chat
      kwargs d1).lines =
      (save_full act_list datapath opt save_keys context_ids self_chat
        kwargs d2).lines ∧
    (save_full act_list datapath opt save_keys context_ids self_chat
      kwargs d1).speakers =
      (save_full act_list datapath opt save_keys context_ids self_chat
        kwargs d2).speakers ∧
    (∀ k, k ≠ "date" →
      dlookup (save_full act_list datapath opt save_keys context_ids
        self_chat kwargs d1).metadata k =
      dlookup (save_full act_list datapath opt save_keys context_ids
        self_chat kwargs d2).metadata k) := by
  refine ⟨rfl, rfl, ?_⟩
  intro k hk
  simp only [save_full, save_metadata]
  refine foldl_dinsert_lookup_congr kwargs _ _ ?_ k hk
  intro k' hk'
  simp only [dlookup_dinsert]
  simp [hk']

theorem claim_c9_identical_output_witness :
    dlookup (save_full [] "data" (Value.obj []) "text,labels,eval_labels"
      "context" false [] "2024-01-01 00:00:00").metadata "version" =
    dlookup (save_full [] "data" (Value.obj []) "text,labels,eval_labels"
      "context" false [] "2025-02-02 00:00:00").metadata "version" :=
  (claim_c9_identical_output [] "data" (Value.obj [])
    "text,labels,eval_labels" "context" false [] "2024-01-01 00:00:00"
    "2025-02-02 00:00:00").2.2 "version" (by decide)
